import Mathlib

/-!
Verification of the prxy reverse-proxy core against its specification.

The development shallowly embeds the Go sources of the repository:

* `internal/prxy/prxy.go` — the forwarding engine (`New`, `Run`, `Addr`),
  its director, transport wiring and error handler;
* `internal/validation/url.go` — `ValidateURL`;
* `internal/config` — `validateConfig`, `LoggingConfig.Validate` and the
  generic `Validate` helper;
* the parts of the Go standard library the engine delegates to:
  `net/url.Parse`, `net/http/httputil.NewSingleHostReverseProxy` (its
  director and hop-by-hop header handling in `ReverseProxy.ServeHTTP`),
  `net/http.ProxyURL`, `net/http.Error` and `net.JoinHostPort`.

Strings are modelled as Lean `String`s and manipulated through explicit
`List Char` recursion so that every definition is executable and every
concrete instance can be settled by `decide`.  Machine-level details that
none of the verified properties touch are simplified and noted at the
definition they concern: percent-escapes are decoded bytewise to code
points (exact for ASCII), IPv6 zone identifiers are validated with the
host character set, and `URL.RawPath` is not tracked (equivalently, the
development covers URLs whose paths need no escaping, which includes every
URL the specification discusses).
-/

set_option maxRecDepth 8192

namespace PrxySpec

/-! ## Character and list helpers -/

/-- ASCII lowercase letter test (`'a' <= c && c <= 'z'` in the Go sources). -/
def isLowerCh (c : Char) : Bool := 97 ≤ c.toNat && c.toNat ≤ 122

/-- ASCII uppercase letter test. -/
def isUpperCh (c : Char) : Bool := 65 ≤ c.toNat && c.toNat ≤ 90

/-- ASCII letter test. -/
def isAlphaCh (c : Char) : Bool := isLowerCh c || isUpperCh c

/-- ASCII digit test. -/
def isDigitCh (c : Char) : Bool := 48 ≤ c.toNat && c.toNat ≤ 57

/-- Hexadecimal digit test (`ishex` in net/url). -/
def isHexCh (c : Char) : Bool :=
  isDigitCh c || (97 ≤ c.toNat && c.toNat ≤ 102) || (65 ≤ c.toNat && c.toNat ≤ 70)

/-- Hexadecimal digit value (`unhex` in net/url). -/
def hexVal (c : Char) : Nat :=
  if isDigitCh c then c.toNat - 48
  else if 97 ≤ c.toNat && c.toNat ≤ 102 then c.toNat - 87
  else c.toNat - 55

/-- Control byte test used by net/url (`b < ' ' || b == 0x7f`). -/
def isCTLChar (c : Char) : Bool := c.toNat < 32 || c.toNat == 127

/-- ASCII lowercasing of one character (`strings.ToLower` restricted to the
scheme alphabet, which is ASCII). -/
def lowerCh (c : Char) : Char := if isUpperCh c then Char.ofNat (c.toNat + 32) else c

/-- ASCII uppercasing of one character. -/
def upperCh (c : Char) : Char := if isLowerCh c then Char.ofNat (c.toNat - 32) else c

/-- `strings.HasPrefix` on character lists. -/
def hasPrefixL (s : List Char) (pre : List Char) : Bool := pre.isPrefixOf s

/-- `strings.HasSuffix` on character lists. -/
def hasSuffixL (s : List Char) (suf : List Char) : Bool := suf.isSuffixOf s

/-- `strings.HasPrefix` on strings. -/
def strHasPrefixGo (s pre : String) : Bool := hasPrefixL s.data pre.data

/-- `strings.HasSuffix` on strings. -/
def strHasSuffixGo (s suf : String) : Bool := hasSuffixL s.data suf.data

/-- Drop the first `n` characters (`s[n:]` on ASCII strings). -/
def dropL (s : List Char) (n : Nat) : List Char := s.drop n

/-- Go `split(s, sep, true)`: split at the first occurrence of `sep`,
cutting the separator; when `sep` does not occur, the second part is empty. -/
def splitOnceCut : List Char → Char → (List Char × List Char)
  | [], _ => ([], [])
  | c :: rest, sep =>
    if c = sep then ([], rest)
    else
      let p := splitOnceCut rest sep
      (c :: p.1, p.2)

/-- Index of the first occurrence of a character (`strings.Index`). -/
def indexOfL : List Char → Char → Option Nat
  | [], _ => none
  | c :: rest, sep =>
    if c = sep then some 0
    else match indexOfL rest sep with
      | some i => some (i + 1)
      | none => none

/-- Helper for `lastIndexOfL`, carrying the index of the head. -/
def lastIndexOfAux : List Char → Char → Nat → Option Nat
  | [], _, _ => none
  | c :: rest, sep, i =>
    match lastIndexOfAux rest sep (i + 1) with
    | some j => some j
    | none => if c = sep then some i else none

/-- Index of the last occurrence of a character (`strings.LastIndex`). -/
def lastIndexOfL (s : List Char) (sep : Char) : Option Nat := lastIndexOfAux s sep 0

/-! ## Model of `net/url.Parse`

Translated from Go `net/url` (`Parse`, `parse` with `viaRequest = false`,
`getScheme`, `parseAuthority`, `parseHost`, `unescape`, `validOptionalPort`,
`validUserinfo`, `setPath`, `setFragment`). -/

/-- Result of Go `url.Parse`: the fields of `net/url.URL` that the
repository reads.  `host` carries the port when one is present, exactly as
`URL.Host` does in Go. -/
structure URL where
  scheme : String := ""
  opaq : String := ""
  user : Option String := none
  host : String := ""
  path : String := ""
  omitHost : Bool := false
  forceQuery : Bool := false
  rawQuery : String := ""
  fragment : String := ""
deriving DecidableEq, Repr

/-- `getScheme` from net/url, as a recursion over the remaining characters;
`full` is the whole input (returned unchanged when no scheme is found) and
`acc` the scheme candidate read so far. -/
def getSchemeAux (full : List Char) : List Char → List Char → Except String (List Char × List Char)
  | _, [] => .ok ([], full)
  | acc, c :: rest =>
    if isAlphaCh c then getSchemeAux full (acc ++ [c]) rest
    else if isDigitCh c || c = '+' || c = '-' || c = '.' then
      if acc = [] then .ok ([], full) else getSchemeAux full (acc ++ [c]) rest
    else if c = ':' then
      if acc = [] then .error "missing protocol scheme"
      else .ok (acc, rest)
    else .ok ([], full)

/-- `getScheme rawURL` returns `(scheme, rest)`. -/
def getScheme (s : List Char) : Except String (List Char × List Char) :=
  getSchemeAux s [] s

/-- `validOptionalPort` from net/url: empty, or a colon followed by digits. -/
def validOptionalPort : List Char → Bool
  | [] => true
  | c :: digits => c = ':' && digits.all isDigitCh

/-- Characters net/url accepts unescaped in a host
(`shouldEscape(c, encodeHost) = false`). -/
def hostAllowedChar (c : Char) : Bool :=
  isAlphaCh c || isDigitCh c ||
  c = '-' || c = '_' || c = '.' || c = '~' ||
  c = '!' || c = '$' || c = '&' || c = Char.ofNat 39 ||
  c = '(' || c = ')' || c = '*' || c = '+' || c = ',' ||
  c = ';' || c = '=' || c = ':' || c = '[' || c = ']' ||
  c = '<' || c = '>' || c = '"'

/-- `unescape(host, encodeHost)` from net/url: validates every plain
character against the host alphabet, validates percent-escapes (which in
host mode must encode a byte of value at least 0x80, except for the literal
escape %25), and decodes the escapes.  Escaped bytes are decoded to the
code point of the byte value, which is exact for ASCII. -/
def unescapeHost : List Char → Except String (List Char)
  | [] => .ok []
  | '%' :: rest =>
    match rest with
    | x :: y :: rest2 =>
      if isHexCh x && isHexCh y then
        if hexVal x < 8 && ¬(x = '2' ∧ y = '5') then .error "invalid URL escape"
        else
          match unescapeHost rest2 with
          | .error e => .error e
          | .ok r => .ok (Char.ofNat (16 * hexVal x + hexVal y) :: r)
      else .error "invalid URL escape"
    | _ => .error "invalid URL escape"
  | c :: rest =>
    if hostAllowedChar c then
      match unescapeHost rest with
      | .error e => .error e
      | .ok r => .ok (c :: r)
    else .error "invalid character in host name"

/-- `parseHost` from net/url.  For a bracketed (IPv6) host the closing
bracket is located and the optional port after it validated; otherwise the
text after the last colon must be a valid optional port.  The host is then
unescaped.  Zone identifiers are validated with the host alphabet rather
than the zone alphabet (the two differ only on characters none of the
verified properties use). -/
def parseHost (host : List Char) : Except String (List Char) :=
  if host.head? = some '[' then
    match lastIndexOfL host ']' with
    | none => .error "missing right bracket in host"
    | some i =>
      if ¬ validOptionalPort (host.drop (i + 1)) then .error "invalid port after host"
      else unescapeHost host
  else
    match lastIndexOfL host ':' with
    | some i =>
      if ¬ validOptionalPort (host.drop i) then .error "invalid port after host"
      else unescapeHost host
    | none => unescapeHost host

/-- `validUserinfo` from net/url. -/
def validUserinfoChar (c : Char) : Bool :=
  isAlphaCh c || isDigitCh c ||
  c = '-' || c = '.' || c = '_' || c = ':' || c = '~' ||
  c = '!' || c = '$' || c = '&' || c = Char.ofNat 39 ||
  c = '(' || c = ')' || c = '*' || c = '+' || c = ',' ||
  c = ';' || c = '=' || c = '%' || c = '@'

/-- Validate the percent-escapes of a string: every `%` must be followed by
two hexadecimal digits (the only error `unescape` can produce in the path,
fragment and userinfo modes). -/
def checkEscapes : List Char → Bool
  | [] => true
  | '%' :: rest =>
    match rest with
    | x :: y :: rest2 => isHexCh x && isHexCh y && checkEscapes rest2
    | _ => false
  | _ :: rest => checkEscapes rest

/-- Decode percent-escapes bytewise (assumes `checkEscapes` holds). -/
def decodeEscapes : List Char → List Char
  | [] => []
  | '%' :: x :: y :: rest2 =>
    if isHexCh x && isHexCh y then Char.ofNat (16 * hexVal x + hexVal y) :: decodeEscapes rest2
    else '%' :: decodeEscapes (x :: y :: rest2)
  | c :: rest => c :: decodeEscapes rest

/-- `parseAuthority` from net/url: split the userinfo at the last `@`,
parse the host, then validate the userinfo characters and escapes.  The
userinfo is kept in raw (escaped) form, which none of the verified
properties inspect. -/
def parseAuthority (authority : List Char) : Except String (Option String × String) :=
  match lastIndexOfL authority '@' with
  | none =>
    match parseHost authority with
    | .error e => .error e
    | .ok h => .ok (none, ⟨h⟩)
  | some i =>
    let userinfo := authority.take i
    match parseHost (authority.drop (i + 1)) with
    | .error e => .error e
    | .ok h =>
      if ¬ userinfo.all validUserinfoChar then .error "net/url: invalid userinfo"
      else if ¬ checkEscapes userinfo then .error "invalid URL escape"
      else .ok (some ⟨userinfo⟩, ⟨h⟩)

/-- `parse(rawURL, viaRequest := false)` from net/url, applied to the input
with the fragment already cut off. -/
def parseInner (s : List Char) : Except String URL :=
  if s.any isCTLChar then .error "net/url: invalid control character in URL"
  else if s = ['*'] then .ok { path := "*" }
  else
    match getScheme s with
    | .error e => .error e
    | .ok (schemeRaw, rest0) =>
      let scheme : String := ⟨schemeRaw.map lowerCh⟩
      let qsplit : List Char × List Char × Bool :=
        if hasSuffixL rest0 ['?'] && ¬ (rest0.dropLast.contains '?') then
          (rest0.dropLast, [], true)
        else
          let p := splitOnceCut rest0 '?'
          (p.1, p.2, false)
      let rest1 := qsplit.1
      let rawQuery : String := ⟨qsplit.2.1⟩
      let forceQuery := qsplit.2.2
      if ¬ hasPrefixL rest1 ['/'] then
        if scheme ≠ "" then
          .ok { scheme := scheme, opaq := ⟨rest1⟩, rawQuery := rawQuery,
                forceQuery := forceQuery }
        else if (rest1.takeWhile (· ≠ '/')).contains ':' then
          .error "first path segment in URL cannot contain colon"
        else
          -- no scheme, no leading slash, no colon in the first segment:
          -- fall through to the authority test (which fails: no "//" prefix)
          if ¬ checkEscapes rest1 then .error "invalid URL escape"
          else .ok { scheme := scheme, path := ⟨decodeEscapes rest1⟩,
                     rawQuery := rawQuery, forceQuery := forceQuery }
      else
        if (scheme ≠ "" || ¬ hasPrefixL rest1 ['/', '/', '/']) && hasPrefixL rest1 ['/', '/'] then
          let afterSlashes := rest1.drop 2
          let asplit : List Char × List Char :=
            match indexOfL afterSlashes '/' with
            | none => (afterSlashes, [])
            | some i => (afterSlashes.take i, afterSlashes.drop i)
          match parseAuthority asplit.1 with
          | .error e => .error e
          | .ok (user, host) =>
            if ¬ checkEscapes asplit.2 then .error "invalid URL escape"
            else .ok { scheme := scheme, user := user, host := host,
                       path := ⟨decodeEscapes asplit.2⟩, rawQuery := rawQuery,
                       forceQuery := forceQuery }
        else
          let omh : Bool := scheme != ""
          if ¬ checkEscapes rest1 then .error "invalid URL escape"
          else .ok { scheme := scheme, omitHost := omh, path := ⟨decodeEscapes rest1⟩,
                     rawQuery := rawQuery, forceQuery := forceQuery }

/-- Go `url.Parse`: cut the fragment, parse the remainder, then validate
and attach the fragment. -/
def urlParseGo (rawURL : String) : Except String URL :=
  let p := splitOnceCut rawURL.data '#'
  match parseInner p.1 with
  | .error e => .error e
  | .ok u =>
    if p.2 = [] then .ok u
    else if ¬ checkEscapes p.2 then .error "invalid URL escape"
    else .ok { u with fragment := ⟨decodeEscapes p.2⟩ }

/-- `Except.isOk`-style discriminator (a Go `err == nil` test). -/
def isOkE {ε α : Type} : Except ε α → Bool
  | .ok _ => true
  | .error _ => false

/-! ## `internal/validation` -/

/-- `validation.ValidateURL` from `internal/validation/url.go`: parse the
URL, require an http or https scheme and a non-empty host. -/
def ValidateURL (rawURL : String) : Except String Unit :=
  match urlParseGo rawURL with
  | .error e => .error ("cannot parse URL: " ++ e)
  | .ok parsedURL =>
    if ¬ (["http", "https"].contains parsedURL.scheme) then
      .error ("URL scheme is invalid: " ++ parsedURL.scheme)
    else if parsedURL.host = "" then
      .error "URL must have a non-empty host"
    else .ok ()

/-- The generic `validation.Validate` helper: membership in the list of
valid options. -/
def validationValidate {α : Type} [BEq α] (value : α) (validOptions : List α) : Except String Unit :=
  if validOptions.contains value then .ok () else .error "invalid value"

/-! ## `internal/config` -/

/-- `config.LoggingConfig`.  The Go `LogLevel`, `LogFormat` and `LogOutput`
types are string newtypes, modelled as strings. -/
structure LoggingConfig where
  level : String
  format : String
  output : String
  path : String := ""
deriving DecidableEq, Repr

/-- `config.ValidLogLevels`. -/
def ValidLogLevels : List String := ["debug", "info", "warn", "error", "fatal"]

/-- `config.ValidLogFormats`. -/
def ValidLogFormats : List String := ["text", "json"]

/-- `config.ValidLogOutputs`. -/
def ValidLogOutputs : List String := ["stdout", "stderr", "file"]

/-- `LoggingConfig.Validate`: collect the errors of the four checks and
fail when any is present (`errors.Join` is modelled as concatenation). -/
def LoggingConfig.Validate (cfg : LoggingConfig) : Except String Unit :=
  let errs : List String :=
    (match validationValidate cfg.level ValidLogLevels with
     | .error e => ["invalid log level: " ++ e]
     | .ok _ => [])
    ++ (match validationValidate cfg.format ValidLogFormats with
        | .error e => ["invalid log format: " ++ e]
        | .ok _ => [])
    ++ (match validationValidate cfg.output ValidLogOutputs with
        | .error e => ["invalid log output destination: " ++ e]
        | .ok _ => [])
    ++ (if cfg.output = "file" ∧ cfg.path = "" then
          ["log path must be specified when output is file"]
        else [])
  if errs ≠ [] then .error (String.intercalate "; " errs) else .ok ()

/-- `config.Config`.  The port is an `Int`, as Go's `int`. -/
structure Config where
  target : String
  proxy : String
  host : String
  port : Int
  logging : LoggingConfig
deriving DecidableEq, Repr

/-- `config.validateConfig`: target URL, proxy URL, port range, logging. -/
def validateConfig (cfg : Config) : Except String Unit :=
  match ValidateURL cfg.target with
  | .error e => .error ("invalid target URL: " ++ e)
  | .ok _ =>
    match ValidateURL cfg.proxy with
    | .error e => .error ("invalid proxy URL: " ++ e)
    | .ok _ =>
      if cfg.port < 0 ∨ cfg.port > 65535 then .error "invalid port"
      else
        match cfg.logging.Validate with
        | .error e => .error e
        | .ok _ => .ok ()

/-! ## HTTP requests, headers and the hop-by-hop hygiene of
`httputil.ReverseProxy.ServeHTTP`

`http.Header` is a map from canonical MIME keys to lists of values; it is
modelled as an association list in which one key may occur several times
(one entry per value). -/

/-- Association-list model of `http.Header`. -/
abbrev Header := List (String × String)

/-- Token characters of MIME header keys (`validHeaderFieldByte` in
net/textproto): letters, digits and `!#$%&'*+-.^_|~` and the backquote. -/
def isTokenChar (c : Char) : Bool :=
  isAlphaCh c || isDigitCh c ||
  c = '!' || c = '#' || c = '$' || c = '%' || c = '&' || c = Char.ofNat 39 ||
  c = '*' || c = '+' || c = '-' || c = '.' || c = '^' || c = '_' ||
  c = Char.ofNat 96 || c = '|' || c = '~'

/-- Case folding of `textproto.CanonicalMIMEHeaderKey`: uppercase the first
letter and every letter following a hyphen, lowercase the rest. -/
def canonAux : Bool → List Char → List Char
  | _, [] => []
  | up, c :: rest =>
    let c2 := if up then upperCh c else lowerCh c
    c2 :: canonAux (c = '-') rest

/-- `textproto.CanonicalMIMEHeaderKey`: canonicalize when every character
is a valid token character, otherwise return the key unchanged. -/
def canonicalMIMEHeaderKey (s : String) : String :=
  if s.data.all isTokenChar then ⟨canonAux true s.data⟩ else s

/-- `Header.Del`: remove every value of the canonicalized key. -/
def headerDel (h : Header) (key : String) : Header :=
  h.filter (fun kv => !(kv.1 == canonicalMIMEHeaderKey key))

/-- `Header.Set`: replace all values of the canonicalized key by one value. -/
def headerSet (h : Header) (key v : String) : Header :=
  (canonicalMIMEHeaderKey key, v) :: headerDel h key

/-- Direct map access `h[key]` (the Go code indexes with already-canonical
literal keys). -/
def headerValues (h : Header) (key : String) : List String :=
  (h.filter (fun kv => kv.1 == key)).map Prod.snd

/-- `Header.Get`: first value of the key, or the empty string. -/
def headerGet (h : Header) (key : String) : String :=
  match headerValues h (canonicalMIMEHeaderKey key) with
  | [] => ""
  | v :: _ => v

/-- `strings.Split(s, ",")` on character lists. -/
def splitOnCommaAux (acc : List Char) : List Char → List (List Char)
  | [] => [acc.reverse]
  | c :: rest =>
    if c = ',' then acc.reverse :: splitOnCommaAux [] rest
    else splitOnCommaAux (c :: acc) rest

/-- `strings.Split(s, ",")`. -/
def splitOnComma (s : String) : List String :=
  (splitOnCommaAux [] s.data).map (fun l => ⟨l⟩)

/-- Trim of spaces and tabs on both ends (`textproto.TrimString`, also the
OWS trim of httpguts). -/
def trimST (s : String) : String :=
  ⟨((s.data.dropWhile (fun c => c = ' ' || c = '\t')).reverse.dropWhile
      (fun c => c = ' ' || c = '\t')).reverse⟩

/-- ASCII case-insensitive token equality (`tokenEqual` in httpguts). -/
def tokenEqualCI (a b : String) : Bool := a.data.map lowerCh == b.data.map lowerCh

/-- `httpguts.headerValueContainsToken`: the comma-separated value
contains the token after OWS trimming, case-insensitively. -/
def headerValueContainsToken (v token : String) : Bool :=
  (splitOnComma v).any (fun sf => tokenEqualCI (trimST sf) token)

/-- `httpguts.HeaderValuesContainsToken`. -/
def headerValuesContainsToken (values : List String) (token : String) : Bool :=
  values.any (fun v => headerValueContainsToken v token)

/-- The `hopHeaders` table of net/http/httputil. -/
def hopHeaders : List String :=
  ["Connection", "Proxy-Connection", "Keep-Alive", "Proxy-Authenticate",
   "Proxy-Authorization", "Te", "Trailer", "Transfer-Encoding", "Upgrade"]

/-- `removeHopByHopHeaders` from net/http/httputil: first delete every
header named by a `Connection` value, then delete the `hopHeaders`. -/
def removeHopByHopHeaders (h : Header) : Header :=
  let afterConn := (headerValues h "Connection").foldl
    (fun acc f => (splitOnComma f).foldl
      (fun acc2 sf =>
        let sf := trimST sf
        if sf ≠ "" then headerDel acc2 sf else acc2)
      acc)
    h
  hopHeaders.foldl (fun acc f => headerDel acc f) afterConn

/-- `upgradeType` from net/http/httputil. -/
def upgradeType (h : Header) : String :=
  if headerValuesContainsToken (headerValues h "Connection") "Upgrade" then headerGet h "Upgrade"
  else ""

/-- The outbound-header computation of `ReverseProxy.ServeHTTP`: read the
upgrade type, strip hop-by-hop headers, re-advertise `Te: trailers` when
the inbound request asked for it, and restore the upgrade headers for
protocol-upgrade requests.  (The `X-Forwarded-For` bookkeeping is omitted:
it touches none of the headers the verified properties mention.) -/
def outboundHeaders (h : Header) : Header :=
  let reqUpType := upgradeType h
  let out := removeHopByHopHeaders h
  let out :=
    if headerValuesContainsToken (headerValues h "Te") "trailers" then headerSet out "Te" "trailers"
    else out
  if reqUpType ≠ "" then headerSet (headerSet out "Connection" "Upgrade") "Upgrade" reqUpType
  else out

/-! ## The single-host director of `httputil.NewSingleHostReverseProxy` -/

/-- `singleJoiningSlash` from net/http/httputil. -/
def singleJoiningSlash (a b : String) : String :=
  let aslash := strHasSuffixGo a "/"
  let bslash := strHasPrefixGo b "/"
  if aslash && bslash then a ++ (⟨b.data.drop 1⟩ : String)
  else if !aslash && !bslash then a ++ "/" ++ b
  else a ++ b

/-- An inbound HTTP request, with the fields the engine reads: method,
parsed URL, the `Host` field (the request's Host header in Go's
`http.Request`), and the header map. -/
structure Request where
  method : String := "GET"
  url : URL := {}
  host : String := ""
  header : Header := []
deriving DecidableEq, Repr

/-- `rewriteRequestURL` from net/http/httputil: rewrite scheme and host to
the target's, join the paths, and merge the queries (the target's query,
when present, is prepended with `&`).  `joinURLPath` is modelled by
`singleJoiningSlash`, its `RawPath = ""` branch: the development covers
URLs whose paths carry no percent-escapes. -/
def rewriteRequestURL (u target : URL) : URL :=
  { u with
    scheme := target.scheme
    host := target.host
    path := singleJoiningSlash target.path u.path
    rawQuery :=
      if target.rawQuery = "" ∨ u.rawQuery = "" then target.rawQuery ++ u.rawQuery
      else target.rawQuery ++ "&" ++ u.rawQuery }

/-- The director installed by `httputil.NewSingleHostReverseProxy`. -/
def NewSingleHostReverseProxyDirector (target : URL) (req : Request) : Request :=
  { req with url := rewriteRequestURL req.url target }

/-- `url.URL.String`, restricted to URLs without percent-escaped
components (escaping is not re-applied). -/
def URL.toStr (u : URL) : String :=
  (if u.scheme ≠ "" then u.scheme ++ ":" else "")
  ++ (if u.opaq ≠ "" then u.opaq
      else
        (if u.scheme ≠ "" ∨ u.host ≠ "" ∨ u.user ≠ none then
          (if u.omitHost ∧ u.host = "" ∧ u.user = none then ""
           else
             (if u.host ≠ "" ∨ u.path ≠ "" ∨ u.user ≠ none then "//" else "")
             ++ (match u.user with | some ui => ui ++ "@" | none => "")
             ++ u.host)
         else "")
        ++ (if u.path ≠ "" ∧ u.path.data.head? ≠ some '/' ∧ u.host ≠ "" then "/" else "")
        ++ u.path)
  ++ (if u.forceQuery ∨ u.rawQuery ≠ "" then "?" ++ u.rawQuery else "")
  ++ (if u.fragment ≠ "" then "#" ++ u.fragment else "")

/-! ## The forwarding engine (`internal/prxy/prxy.go`) -/

/-- A leveled, structured log event (the calls the engine makes on the
logging collaborator). -/
structure LogEvent where
  level : String
  msg : String
  fields : List (String × String)
deriving DecidableEq, Repr

/-- An HTTP response as written by the error path. -/
structure Response where
  status : Nat
  contentType : String
  body : String
deriving DecidableEq, Repr

/-- `http.Error(rw, msg, code)`: plain-text content type, the status code,
and the message followed by a newline. -/
def httpError (msg : String) (code : Nat) : Response :=
  { status := code, contentType := "text/plain; charset=utf-8", body := msg ++ "\n" }

/-- `http.ProxyURL(fixedURL)`: the transport's proxy-selection function;
it ignores the request and returns the fixed URL with a nil error. -/
def ProxyURL (fixedURL : URL) : Request → Option URL × Option String :=
  fun _ => (some fixedURL, none)

/-- The reverse-proxy handler assembled by `prxy.New`: the overridden
director, the transport's proxy selector, and the error handler (returning
the log event emitted and the response written). -/
structure ReverseProxyHandler where
  director : Request → Request
  transportProxy : Request → Option URL × Option String
  errorHandler : Request → String → LogEvent × Response

/-- The `http.Server` value built by `prxy.New`: its configured address
string and its handler. -/
structure HTTPServer where
  addr : String
  handler : ReverseProxyHandler

/-- The `Prxy` struct. -/
structure Prxy where
  server : HTTPServer

/-- `net.JoinHostPort`: bracket the host when it contains a colon. -/
def joinHostPort (host port : String) : String :=
  if host.data.contains ':' then "[" ++ host ++ "]:" ++ port else host ++ ":" ++ port

/-- `strconv.Itoa`. -/
def itoa (n : Int) : String := toString n

/-- The engine value `prxy.New` builds once both URLs parse: the
single-host director followed by the Host-field override, the transport
wired to `http.ProxyURL(parsedProxyURL)`, the logging error handler, and
the server address from `net.JoinHostPort(cfg.Host, strconv.Itoa(cfg.Port))`. -/
def buildPrxy (cfg : Config) (parsedTargetURL parsedProxyURL : URL) : Prxy :=
  { server :=
    { addr := joinHostPort cfg.host (itoa cfg.port)
      handler :=
      { director := fun req =>
          { NewSingleHostReverseProxyDirector parsedTargetURL req with
            host := parsedTargetURL.host }
        transportProxy := ProxyURL parsedProxyURL
        errorHandler := fun req err =>
          ({ level := "error", msg := "Reverse proxy error",
             fields := [("url", URL.toStr req.url), ("error", err)] },
           httpError ("Proxy Error: " ++ err) 502) } } }

/-- `prxy.New`: parse the target URL, parse the proxy URL, build the
engine; the only failures are parse failures. -/
def Prxy.New (cfg : Config) : Except String Prxy :=
  match urlParseGo cfg.target with
  | .error e => .error ("invalid target URL: " ++ e)
  | .ok parsedTargetURL =>
    match urlParseGo cfg.proxy with
    | .error e => .error ("invalid proxy URL: " ++ e)
    | .ok parsedProxyURL => .ok (buildPrxy cfg parsedTargetURL parsedProxyURL)

/-- `Prxy.Addr`: returns `s.server.Addr`, the address string fixed at
construction time. -/
def Prxy.Addr (s : Prxy) : String := s.server.addr

/-- The ways `http.Server.ListenAndServe` can stop.  Modelled from the
net/http contract (and the comment in `Prxy.Run`): after `Shutdown` it
returns the sentinel `http.ErrServerClosed`; otherwise it returns the
listener or serve failure.  It never returns nil. -/
inductive ServeOutcome where
  | shutdownInitiated : ServeOutcome
  | listenFailed : String → ServeOutcome
deriving DecidableEq, Repr

/-- Go errors as returned to the caller of `Run`: `none` is a nil error. -/
inductive GoError where
  | errServerClosed : GoError
  | listenerError : String → GoError
deriving DecidableEq, Repr

/-- Modelled from the net/http contract of `ListenAndServe` (see
`ServeOutcome`). -/
def HTTPServer.ListenAndServe (_ : HTTPServer) : ServeOutcome → Option GoError
  | .shutdownInitiated => some .errServerClosed
  | .listenFailed e => some (.listenerError e)

/-- `Prxy.Run`: returns `s.server.ListenAndServe()` unchanged. -/
def Prxy.Run (s : Prxy) (o : ServeOutcome) : Option GoError :=
  s.server.ListenAndServe o

/-! ## Specification-side predicates

These two definitions follow the specification's words (a valid URL is an
absolute http/https URL with a non-empty host; a valid logging
configuration has known level, format and output, and a path when the
output is a file), to be compared with the code's validators. -/

/-- Modelled from the spec: a well-formed URL per §6 — parses, scheme in
http/https, non-empty host. -/
def specValidURL (s : String) : Prop :=
  ∃ u, urlParseGo s = .ok u ∧ (u.scheme = "http" ∨ u.scheme = "https") ∧ u.host ≠ ""

/-- Modelled from the spec: a valid logging configuration — known level,
format and output, and a non-empty path when the output is a file. -/
def specValidLogging (c : LoggingConfig) : Prop :=
  c.level ∈ ValidLogLevels ∧ c.format ∈ ValidLogFormats ∧ c.output ∈ ValidLogOutputs ∧
  (c.output = "file" → c.path ≠ "")

/-! ## Concrete fixtures used by witnesses and counterexamples -/

/-- A valid logging configuration (the defaults of `config.Defaults`). -/
def loggingEx : LoggingConfig := { level := "info", format := "text", output := "stdout" }

/-- A well-formed configuration. -/
def cfgEx : Config :=
  { target := "http://example.com:8443/base", proxy := "http://127.0.0.1:3128",
    host := "localhost", port := 8080, logging := loggingEx }

/-- The parse of `cfgEx.target`. -/
def tEx : URL := { scheme := "http", host := "example.com:8443", path := "/base" }

/-- The parse of `cfgEx.proxy`. -/
def pEx : URL := { scheme := "http", host := "127.0.0.1:3128" }

/-- An inbound request with a path, a query and its own Host header. -/
def reqEx : Request :=
  { method := "GET", url := { path := "/some/path", rawQuery := "q=1" },
    host := "localhost:8080", header := [("Accept", "text/html")] }

/-! ## Helper lemmas -/

theorem strAppendAssoc (a b c : String) : (a ++ b) ++ c = a ++ (b ++ c) := by
  cases a with
  | mk da =>
    cases b with
    | mk db =>
      cases c with
      | mk dc =>
        show String.mk ((da ++ db) ++ dc) = String.mk (da ++ (db ++ dc))
        rw [List.append_assoc]

theorem strEmptyAppend (s : String) : "" ++ s = s := by
  cases s with
  | mk d =>
    show String.mk ([] ++ d) = String.mk d
    rw [List.nil_append]

theorem filter_not_self {α : Type} (l : List α) (q : α → Bool) :
    (l.filter (fun x => !(q x))).filter q = [] := by
  induction l with
  | nil => rfl
  | cons x rest ih =>
    by_cases hx : q x <;> simp [List.filter_cons, hx, ih]

theorem headerValues_del_self (h : Header) (k : String) :
    headerValues (headerDel h k) (canonicalMIMEHeaderKey k) = [] := by
  show ((h.filter fun kv => !(kv.1 == canonicalMIMEHeaderKey k)).filter
          fun kv => kv.1 == canonicalMIMEHeaderKey k).map Prod.snd = []
  rw [filter_not_self]
  rfl

theorem headerValues_del_preserve (h : Header) (k key : String)
    (hnil : headerValues h key = []) : headerValues (headerDel h k) key = [] := by
  unfold headerValues headerDel at *
  have hfil : h.filter (fun kv => kv.1 == key) = [] := List.map_eq_nil_iff.mp hnil
  have hall : ∀ kv ∈ h, ¬ ((fun kv : String × String => kv.1 == key) kv = true) := by
    intro kv hkv
    exact (List.filter_eq_nil_iff.mp hfil) kv hkv
  have : (h.filter fun kv => !(kv.1 == canonicalMIMEHeaderKey k)).filter
      (fun kv => kv.1 == key) = [] := by
    apply List.filter_eq_nil_iff.mpr
    intro kv hkv
    exact hall kv (List.mem_of_mem_filter hkv)
  rw [this]
  rfl

theorem headerValues_foldl_del_preserve (L : List String) (h : Header) (key : String)
    (hnil : headerValues h key = []) :
    headerValues (L.foldl (fun acc f => headerDel acc f) h) key = [] := by
  induction L generalizing h with
  | nil => exact hnil
  | cons k rest ih => exact ih _ (headerValues_del_preserve _ _ _ hnil)

theorem headerValues_foldl_del_mem (L : List String) (h : Header) (k : String)
    (hk : k ∈ L) (hcanon : canonicalMIMEHeaderKey k = k) :
    headerValues (L.foldl (fun acc f => headerDel acc f) h) k = [] := by
  induction L generalizing h with
  | nil => cases hk
  | cons k0 rest ih =>
    rcases List.mem_cons.mp hk with heq | hmem
    · subst heq
      have hd := headerValues_del_self h k
      rw [hcanon] at hd
      exact headerValues_foldl_del_preserve rest _ _ hd
    · exact ih _ hmem

/-! ## Claim theorems -/

/-- C1: for every inbound HTTP request processed by the handler built by
`New`, the outgoing request's Host header (the request's `Host` field) is
set to the target URL's host — including the port when the target URL
carries one, since `URL.host` does — regardless of the inbound request's
own Host header. -/
theorem C1_outbound_host_rewritten (cfg : Config) (t p : URL) (req : Request)
    (ht : urlParseGo cfg.target = .ok t) (hp : urlParseGo cfg.proxy = .ok p) :
    Prxy.New cfg = .ok (buildPrxy cfg t p) ∧
    ((buildPrxy cfg t p).server.handler.director req).host = t.host := by
  refine ⟨?_, rfl⟩
  simp [Prxy.New, ht, hp]

/-- Witness for C1 at a concrete configuration and request: the target has
an explicit port and the inbound request has its own Host header, yet the
outgoing Host field is the target's host and port. -/
theorem C1_outbound_host_rewritten_witness :
    Prxy.New cfgEx = .ok (buildPrxy cfgEx tEx pEx) ∧
    ((buildPrxy cfgEx tEx pEx).server.handler.director reqEx).host = tEx.host :=
  C1_outbound_host_rewritten cfgEx tEx pEx reqEx (by rfl) (by rfl)

/-- C2: the transport wired by `New` selects the configured outbound proxy
URL for every request, with a nil error — the selection ignores the request
entirely (so both http and https targets, and every destination, go through
the outbound proxy; none bypasses it). -/
theorem C2_unconditional_outbound_proxy (cfg : Config) (t p : URL) (req : Request)
    (ht : urlParseGo cfg.target = .ok t) (hp : urlParseGo cfg.proxy = .ok p) :
    Prxy.New cfg = .ok (buildPrxy cfg t p) ∧
    (buildPrxy cfg t p).server.handler.transportProxy req = (some p, none) := by
  refine ⟨?_, rfl⟩
  simp [Prxy.New, ht, hp]

/-- Witness for C2 at a concrete configuration and request. -/
theorem C2_unconditional_outbound_proxy_witness :
    Prxy.New cfgEx = .ok (buildPrxy cfgEx tEx pEx) ∧
    (buildPrxy cfgEx tEx pEx).server.handler.transportProxy reqEx = (some pEx, none) :=
  C2_unconditional_outbound_proxy cfgEx tEx pEx reqEx (by rfl) (by rfl)

/-- C3: the error handler installed by `New` responds with status 502
(Bad Gateway) and a plain-text body starting with the phrase
"Proxy Error", and logs the message "Reverse proxy error" at error
severity with the request URL and the error as fields.  The handler is a
total function producing a response for every request and error, so the
failure is contained per-request: it never escapes the handler. -/
theorem C3_error_handler_502 (cfg : Config) (t p : URL) (req : Request) (err : String)
    (ht : urlParseGo cfg.target = .ok t) (hp : urlParseGo cfg.proxy = .ok p) :
    Prxy.New cfg = .ok (buildPrxy cfg t p) ∧
    ((buildPrxy cfg t p).server.handler.errorHandler req err).2.status = 502 ∧
    ((buildPrxy cfg t p).server.handler.errorHandler req err).2.contentType =
      "text/plain; charset=utf-8" ∧
    (∃ rest, ((buildPrxy cfg t p).server.handler.errorHandler req err).2.body =
      "Proxy Error" ++ rest) ∧
    ((buildPrxy cfg t p).server.handler.errorHandler req err).1 =
      { level := "error", msg := "Reverse proxy error",
        fields := [("url", URL.toStr req.url), ("error", err)] } := by
  refine ⟨?_, rfl, rfl, ⟨": " ++ (err ++ "\n"), ?_⟩, rfl⟩
  · simp [Prxy.New, ht, hp]
  · show ("Proxy Error: " ++ err) ++ "\n" = "Proxy Error" ++ (": " ++ (err ++ "\n"))
    rw [strAppendAssoc, ← strAppendAssoc "Proxy Error" ": " (err ++ "\n")]
    exact congrArg (fun s => s ++ (err ++ "\n"))
      (by decide : "Proxy Error: " = "Proxy Error" ++ ": ")

/-- Witness for C3 at a concrete configuration, request and error. -/
theorem C3_error_handler_502_witness :
    Prxy.New cfgEx = .ok (buildPrxy cfgEx tEx pEx) ∧
    ((buildPrxy cfgEx tEx pEx).server.handler.errorHandler reqEx "connection refused").2.status = 502 ∧
    ((buildPrxy cfgEx tEx pEx).server.handler.errorHandler reqEx "connection refused").2.contentType =
      "text/plain; charset=utf-8" ∧
    (∃ rest, ((buildPrxy cfgEx tEx pEx).server.handler.errorHandler reqEx "connection refused").2.body =
      "Proxy Error" ++ rest) ∧
    ((buildPrxy cfgEx tEx pEx).server.handler.errorHandler reqEx "connection refused").1 =
      { level := "error", msg := "Reverse proxy error",
        fields := [("url", URL.toStr reqEx.url), ("error", "connection refused")] } :=
  C3_error_handler_502 cfgEx tEx pEx reqEx "connection refused" (by rfl) (by rfl)

/-- A configuration with port 0 (ephemeral), as in the C6 scenario. -/
def cfgZeroPort : Config :=
  { target := "http://example.com", proxy := "http://127.0.0.1:3128",
    host := "localhost", port := 0, logging := loggingEx }

/-- C6 fails on the code: `Addr` returns `s.server.Addr`, the configured
address string fixed by `New` — here "localhost:0" — which is not the
empty string before the server listens, and is never updated to the
OS-resolved port afterwards (no code path mutates `server.Addr`).  This
contradicts both the claim and the method's own doc comment ("Returns an
empty string if the server is not running"). -/
theorem C6_addr_is_configured_string :
    (Prxy.New cfgZeroPort).map Prxy.Addr = .ok "localhost:0" ∧
    ("localhost:0" == "") = false :=
  ⟨rfl, rfl⟩

/-- C10: `Run` returns `ListenAndServe`'s result unchanged, which is never
a nil error: after `Shutdown` it is the sentinel `http.ErrServerClosed`
(and only then), and on a listener failure it is that failure's error. -/
theorem C10_run_always_non_nil (prx : Prxy) (o : ServeOutcome) (m : String) :
    Prxy.Run prx o ≠ none ∧
    (Prxy.Run prx o = some GoError.errServerClosed ↔ o = ServeOutcome.shutdownInitiated) ∧
    Prxy.Run prx (ServeOutcome.listenFailed m) = some (GoError.listenerError m) := by
  refine ⟨?_, ?_, rfl⟩ <;> cases o <;> simp [Prxy.Run, HTTPServer.ListenAndServe]

/-- A configuration whose target URL has a trailing-slash base path and a
query string, for the C4 counterexample. -/
def cfg4 : Config :=
  { target := "http://example.com/base/?t=1", proxy := "http://127.0.0.1:3128",
    host := "localhost", port := 0, logging := loggingEx }

/-- The parse of `cfg4.target`. -/
def t4 : URL := { scheme := "http", host := "example.com", path := "/base/", rawQuery := "t=1" }

/-- The parse of `cfg4.proxy`. -/
def p4 : URL := { scheme := "http", host := "127.0.0.1:3128" }

/-- An inbound request to `/p?q=1`. -/
def req4 : Request := { method := "GET", url := { path := "/p", rawQuery := "q=1" }, host := "localhost:12345" }

/-- C4 fails as stated: with target `http://example.com/base/?t=1` and
inbound request `/p?q=1`, the outbound path is "/base/p" — not the plain
concatenation "/base//p" of the target's base path and the inbound path —
and the outbound query is "t=1&q=1", not the unchanged inbound "q=1". -/
theorem C4_path_query_counterexample :
    Prxy.New cfg4 = .ok (buildPrxy cfg4 t4 p4) ∧
    ((buildPrxy cfg4 t4 p4).server.handler.director req4).url.path = "/base/p" ∧
    (((buildPrxy cfg4 t4 p4).server.handler.director req4).url.path ==
      t4.path ++ req4.url.path) = false ∧
    ((buildPrxy cfg4 t4 p4).server.handler.director req4).url.rawQuery = "t=1&q=1" ∧
    (((buildPrxy cfg4 t4 p4).server.handler.director req4).url.rawQuery ==
      req4.url.rawQuery) = false :=
  ⟨rfl, rfl, rfl, rfl, rfl⟩

/-- C4 amended: for inbound requests whose path starts with "/" (as every
HTTP request path does), against a target whose base path does not end
with "/" and whose URL carries no query string, the outbound path is
exactly the target's base path concatenated with the inbound path, and the
inbound query string is preserved unchanged.  (In general the code joins
the two paths with a single slash and prepends a target query with "&".) -/
theorem C4_path_query_amended (cfg : Config) (t p : URL) (req : Request)
    (ht : urlParseGo cfg.target = .ok t) (hp : urlParseGo cfg.proxy = .ok p)
    (hslash : strHasSuffixGo t.path "/" = false)
    (hreq : strHasPrefixGo req.url.path "/" = true)
    (hq : t.rawQuery = "") :
    Prxy.New cfg = .ok (buildPrxy cfg t p) ∧
    ((buildPrxy cfg t p).server.handler.director req).url.path = t.path ++ req.url.path ∧
    ((buildPrxy cfg t p).server.handler.director req).url.rawQuery = req.url.rawQuery := by
  refine ⟨by simp [Prxy.New, ht, hp], ?_, ?_⟩
  · show singleJoiningSlash t.path req.url.path = t.path ++ req.url.path
    simp [singleJoiningSlash, hslash, hreq]
  · show (if t.rawQuery = "" ∨ req.url.rawQuery = "" then t.rawQuery ++ req.url.rawQuery
          else t.rawQuery ++ "&" ++ req.url.rawQuery) = req.url.rawQuery
    rw [hq]
    simp [strEmptyAppend]

/-- Witness for the amended C4: target base path "/base" (no trailing
slash, no query), inbound request "/some/path?q=1": outbound path is
"/base/some/path" = "/base" ++ "/some/path" and the query is preserved. -/
theorem C4_path_query_amended_witness :
    Prxy.New cfgEx = .ok (buildPrxy cfgEx tEx pEx) ∧
    ((buildPrxy cfgEx tEx pEx).server.handler.director reqEx).url.path =
      tEx.path ++ reqEx.url.path ∧
    ((buildPrxy cfgEx tEx pEx).server.handler.director reqEx).url.rawQuery =
      reqEx.url.rawQuery :=
  C4_path_query_amended cfgEx tEx pEx reqEx (by rfl) (by rfl) (by rfl) (by rfl) (by rfl)

/-- C9 fails as stated: an inbound request carrying only `TE: trailers`
(canonical key "Te") has that hop-by-hop header forwarded verbatim —
`ReverseProxy.ServeHTTP` deliberately re-advertises trailer support after
stripping the hop-by-hop set. -/
theorem C9_hop_headers_counterexample :
    outboundHeaders [("Te", "trailers")] = [("Te", "trailers")] ∧
    headerValues (outboundHeaders [("Te", "trailers")]) "Te" =
      headerValues [("Te", "trailers")] "Te" :=
  ⟨rfl, rfl⟩

/-- C9 amended: unless the inbound request asks for a protocol upgrade
(a `Connection` value containing the token "Upgrade") or advertises
`TE: trailers` (in which cases `Connection`/`Upgrade`, respectively
`Te: trailers`, are regenerated on the outbound request), none of the
eight hop-by-hop headers — Connection, Keep-Alive, Proxy-Authenticate,
Proxy-Authorization, TE (canonical key "Te"), Trailer, Transfer-Encoding,
Upgrade — appears on the outbound request. -/
theorem C9_hop_headers_amended (h : Header) (name : String)
    (hup : upgradeType h = "")
    (hte : headerValuesContainsToken (headerValues h "Te") "trailers" = false)
    (hname : name ∈ ["Connection", "Keep-Alive", "Proxy-Authenticate", "Proxy-Authorization",
                     "Te", "Trailer", "Transfer-Encoding", "Upgrade"]) :
    headerValues (outboundHeaders h) name = [] := by
  have houts : outboundHeaders h = removeHopByHopHeaders h := by
    unfold outboundHeaders
    rw [hup, hte]
    simp
  rw [houts]
  unfold removeHopByHopHeaders
  fin_cases hname <;>
    exact headerValues_foldl_del_mem hopHeaders _ _ (by decide) (by decide)

/-- An inbound request header set carrying all eight hop-by-hop headers
(without an upgrade token in Connection or a trailers token in TE) plus an
end-to-end header. -/
def h9 : Header :=
  [("Connection", "keep-alive"), ("Keep-Alive", "timeout=5"),
   ("Proxy-Authenticate", "Basic"), ("Proxy-Authorization", "secret"),
   ("Te", "gzip"), ("Trailer", "Expires"), ("Transfer-Encoding", "chunked"),
   ("Upgrade", "websocket"), ("Accept", "text/html")]

/-- Witness for the amended C9: on `h9` the outbound header set drops
`Upgrade` (and, by the same theorem at the other names, the rest of the
eight). -/
theorem C9_hop_headers_amended_witness :
    headerValues (outboundHeaders h9) "Upgrade" = [] :=
  C9_hop_headers_amended h9 "Upgrade" (by decide) (by decide) (by decide)

theorem validateURL_isOk_iff (s : String) : isOkE (ValidateURL s) = true ↔ specValidURL s := by
  unfold ValidateURL specValidURL
  cases h : urlParseGo s with
  | error e => simp [isOkE, h]
  | ok u =>
    have hcont : (["http", "https"].contains u.scheme = true) ↔
        (u.scheme = "http" ∨ u.scheme = "https") := by
      constructor
      · intro hc
        simpa using List.elem_iff.mp hc
      · intro hc
        exact List.elem_iff.mpr (by simpa using hc)
    constructor
    · intro hOk
      refine ⟨u, rfl, ?_⟩
      by_cases hs : (["http", "https"].contains u.scheme) = true
      · by_cases hh : u.host = ""
        · simp [isOkE, hs, hh] at hOk
          rcases Decidable.em (¬u.scheme = "http" ∧ ¬u.scheme = "https") with hcond | hcond <;>
            simp [hcond] at hOk
        · exact ⟨hcont.mp hs, hh⟩
      · have hns := not_or.mp (fun hc => hs (hcont.mpr hc))
        simp [isOkE, hns.1, hns.2] at hOk
    · rintro ⟨u2, hu2, hsc, hh⟩
      injection hu2 with he
      subst he
      rcases hsc with hA | hB
      · simp [isOkE, hA, hh]
      · simp [isOkE, hB, hh]

theorem loggingValidate_isOk_iff (c : LoggingConfig) :
    isOkE c.Validate = true ↔ specValidLogging c := by
  have hl : (ValidLogLevels.contains c.level = true) ↔ c.level ∈ ValidLogLevels :=
    List.elem_iff
  have hf : (ValidLogFormats.contains c.format = true) ↔ c.format ∈ ValidLogFormats :=
    List.elem_iff
  have ho : (ValidLogOutputs.contains c.output = true) ↔ c.output ∈ ValidLogOutputs :=
    List.elem_iff
  unfold LoggingConfig.Validate specValidLogging validationValidate
  by_cases h1 : (ValidLogLevels.contains c.level) = true <;>
  by_cases h2 : (ValidLogFormats.contains c.format) = true <;>
  by_cases h3 : (ValidLogOutputs.contains c.output) = true <;>
  by_cases h4 : c.output = "file" ∧ c.path = "" <;>
    simp_all [isOkE]

/-- A configuration whose target is the empty string and whose proxy has a
non-http scheme: both malformed in the sense of `ValidateURL`. -/
def cfgMalformed : Config :=
  { target := "", proxy := "ftp://example.com", host := "localhost", port := 0,
    logging := loggingEx }

/-- C5 fails as stated: `New` only calls `url.Parse`, which accepts the
empty string, a wrong scheme and a missing host, so `New` succeeds — and a
handler is created — for each of the claim's malformed categories, even
though `ValidateURL` rejects all of them. -/
theorem C5_new_accepts_malformed_counterexample :
    isOkE (Prxy.New cfgMalformed) = true ∧
    isOkE (ValidateURL cfgMalformed.target) = false ∧
    isOkE (ValidateURL cfgMalformed.proxy) = false ∧
    isOkE (ValidateURL "http://") = false ∧
    isOkE (Prxy.New { cfgMalformed with target := "http://", proxy := "http://" }) = true :=
  ⟨rfl, rfl, rfl, rfl, rfl⟩

/-- C5 amended: `New` fails exactly when `url.Parse` fails on the target
or the proxy string.  The claim's malformed categories — empty string,
wrong scheme, missing host — all parse successfully, so they do not make
`New` fail; they are instead rejected by `ValidateURL` (which accepts
exactly the URLs that parse with an http or https scheme and a non-empty
host), called by `config.validateConfig` before `New` ever runs, so the
application never constructs a handler from them. -/
theorem C5_new_parse_failures_only :
    (∀ cfg : Config, isOkE (Prxy.New cfg) =
      (isOkE (urlParseGo cfg.target) && isOkE (urlParseGo cfg.proxy))) ∧
    (∀ s : String, isOkE (ValidateURL s) = true ↔ specValidURL s) ∧
    isOkE (urlParseGo "") = true ∧
    isOkE (urlParseGo "ftp://example.com") = true ∧
    isOkE (urlParseGo "http://") = true ∧
    isOkE (Prxy.New { cfgMalformed with target := "://bad", proxy := "http://ok.example" }) = false := by
  refine ⟨?_, validateURL_isOk_iff, rfl, rfl, rfl, rfl⟩
  intro cfg
  unfold Prxy.New
  cases h1 : urlParseGo cfg.target <;> cases h2 : urlParseGo cfg.proxy <;> simp [isOkE]

/-- C8: `config.validateConfig` succeeds exactly when the target URL is
valid (parses with http/https scheme and non-empty host), the proxy URL is
valid, the port is within 0..65535, and the logging configuration is valid
(known level, format and output, with a path when the output is a file);
it fails in every other case.  `config.New` returns the loaded
configuration exactly when this validation passes. -/
theorem C8_validate_config_iff (cfg : Config) :
    isOkE (validateConfig cfg) = true ↔
      (specValidURL cfg.target ∧ specValidURL cfg.proxy ∧
       0 ≤ cfg.port ∧ cfg.port ≤ 65535 ∧ specValidLogging cfg.logging) := by
  unfold validateConfig
  cases hT : ValidateURL cfg.target with
  | error e =>
    have hnT : ¬ specValidURL cfg.target := by
      rw [← validateURL_isOk_iff]
      simp [hT, isOkE]
    simp [isOkE, hnT]
  | ok uT =>
    have hT2 : specValidURL cfg.target := (validateURL_isOk_iff _).mp (by simp [hT, isOkE])
    cases hP : ValidateURL cfg.proxy with
    | error e =>
      have hnP : ¬ specValidURL cfg.proxy := by
        rw [← validateURL_isOk_iff]
        simp [hP, isOkE]
      simp [isOkE, hnP, hT2]
    | ok uP =>
      have hP2 : specValidURL cfg.proxy := (validateURL_isOk_iff _).mp (by simp [hP, isOkE])
      by_cases hport : cfg.port < 0 ∨ cfg.port > 65535
      · rcases hport with h1 | h1
        · have h2 : ¬ (0 ≤ cfg.port) := by omega
          simp [isOkE, h1, h2, hT2, hP2]
        · have h2 : ¬ (cfg.port ≤ 65535) := by omega
          simp [isOkE, h1, h2, hT2, hP2]
      · have hpr : 0 ≤ cfg.port ∧ cfg.port ≤ 65535 := by omega
        cases hL : cfg.logging.Validate with
        | error e =>
          have hnL : ¬ specValidLogging cfg.logging := by
            rw [← loggingValidate_isOk_iff]
            simp [hL, isOkE]
          simp [isOkE, hport, hL, hT2, hP2, hpr.1, hpr.2, hnL]
        | ok u =>
          have hL2 : specValidLogging cfg.logging :=
            (loggingValidate_isOk_iff _).mp (by simp [hL, isOkE])
          simp [isOkE, hport, hL, hT2, hP2, hpr.1, hpr.2, hL2]

/-- Witness for C8 at the concrete valid configuration `cfgEx`. -/
theorem C8_validate_config_iff_witness :
    isOkE (validateConfig cfgEx) = true ↔
      (specValidURL cfgEx.target ∧ specValidURL cfgEx.proxy ∧
       0 ≤ cfgEx.port ∧ cfgEx.port ≤ 65535 ∧ specValidLogging cfgEx.logging) :=
  C8_validate_config_iff cfgEx

end PrxySpec
